import Mathlib

/-!
Verification of the DGMR radar-label preprocessing pipeline
(`preprocess.py`): grid loading and sentinel normalization
(`read_radar_file`), clutter detection from the discrete gradient field
(`has_clutter`), rain detection via small-object removal and a masked
intensity sum (`is_rainy`), and the batch labelling loop (`main`).

Numeric model: radar intensities and calibration values are embedded as
exact rationals (the integer grid data of the files and the halved
central differences of `np.gradient` are all exactly representable).
A grid of shape r x c is a function `Fin r → Fin c → ℚ`.  Fallible
operations (`np.gradient` refuses axes shorter than 2 points) return
`Except String`.
-/

namespace DGMR

/-- A 2-D reflectivity grid of shape `r × c`, cells as exact rationals. -/
abbrev Grid (r c : ℕ) := Fin r → Fin c → ℚ

/-- A 2-D boolean grid of shape `r × c` (the clutter mask). -/
abbrev BGrid (r c : ℕ) := Fin r → Fin c → Bool

/-- A cell position inside an `r × c` grid. -/
abbrev Pos (r c : ℕ) := Fin r × Fin c

/-- Total cell access by natural indices: in-range cells of the grid,
0 outside (only ever used at indices the gradient formulas keep in
range). -/
def cell {r c : ℕ} (g : Grid r c) (i j : ℕ) : ℚ :=
  if h : i < r ∧ j < c then g ⟨i, h.1⟩ ⟨j, h.2⟩ else 0

/-- `np.gradient` along axis 0 (rows): one-sided differences at the first
and last row, central differences (halved) in the interior. -/
def gradRow {r c : ℕ} (g : Grid r c) (i : Fin r) (j : Fin c) : ℚ :=
  if i.val = 0 then cell g 1 j.val - cell g 0 j.val
  else if i.val = r - 1 then cell g (r - 1) j.val - cell g (r - 2) j.val
  else (cell g (i.val + 1) j.val - cell g (i.val - 1) j.val) / 2

/-- `np.gradient` along axis 1 (columns): one-sided differences at the
first and last column, central differences (halved) in the interior. -/
def gradCol {r c : ℕ} (g : Grid r c) (i : Fin r) (j : Fin c) : ℚ :=
  if j.val = 0 then cell g i.val 1 - cell g i.val 0
  else if j.val = c - 1 then cell g i.val (c - 1) - cell g i.val (c - 2)
  else (cell g i.val (j.val + 1) - cell g i.val (j.val - 1)) / 2

/-- Per-cell squared gradient magnitude `gx**2 + gy**2`. -/
def magSq {r c : ℕ} (g : Grid r c) (i : Fin r) (j : Fin c) : ℚ :=
  gradRow g i j ^ 2 + gradCol g i j ^ 2

/-- Number of cells whose squared gradient magnitude strictly exceeds
`threshold**2` (`np.sum(clutter_pixels)` in the source). -/
def clutterCount {r c : ℕ} (g : Grid r c) (threshold : ℚ) : ℕ :=
  (Finset.univ.filter fun p : Pos r c => threshold ^ 2 < magSq g p.1 p.2).card

/-- `has_clutter(image, threshold=500, min_pixels=130)`.  `np.gradient`
raises `ValueError` when either axis has fewer than 2 points
(`edge_order + 1` elements are required), so the embedding is fallible. -/
def has_clutter {r c : ℕ} (g : Grid r c) (threshold : ℚ) (min_pixels : ℕ) :
    Except String Bool :=
  if r < 2 ∨ c < 2 then
    Except.error "Shape of array too small to calculate a numerical gradient"
  else
    Except.ok (decide (min_pixels < clutterCount g threshold))

/-! ### 8-connectivity and `skimage.morphology.remove_small_objects` -/

/-- Two natural indices differ by at most one. -/
def natNear (a b : ℕ) : Bool := a == b || a == b + 1 || b == a + 1

/-- 8-connectivity adjacency: distinct cells whose row and column indices
each differ by at most one (diagonals included). -/
def adj8 {r c : ℕ} (p q : Pos r c) : Bool :=
  decide (p ≠ q) && natNear p.1.val q.1.val && natNear p.2.val q.2.val

/-- One saturation step of component labelling: add every mask-true cell
adjacent to the set. -/
def maskStep {r c : ℕ} (m : Pos r c → Bool) (s : Finset (Pos r c)) :
    Finset (Pos r c) :=
  s ∪ Finset.univ.filter fun q => m q = true ∧ ∃ p ∈ s, adj8 p q = true

/-- The set of cells reachable from `p` through mask-true cells under
8-connectivity, computed by saturating for `r * c` steps (enough to reach
the fixed point, as proved below). -/
def reachSet {r c : ℕ} (m : Pos r c → Bool) (p : Pos r c) :
    Finset (Pos r c) :=
  (maskStep m)^[r * c] {p}

/-- `skimage.morphology.remove_small_objects(m, min_size, connectivity=8)`
on a boolean grid: a cell stays true iff it is true and its 8-connected
component has at least `min_size` cells. -/
def remove_small_objects {r c : ℕ} (m : Pos r c → Bool) (min_size : ℕ) :
    Pos r c → Bool :=
  fun p => m p && decide (min_size ≤ (reachSet m p).card)

/-! ### `is_rainy` -/

/-- The binary signal mask `image > 0`. -/
def rainMask {r c : ℕ} (g : Grid r c) : Pos r c → Bool :=
  fun p => decide (0 < g p.1 p.2)

/-- `valid_objects = morphology.remove_small_objects(image > 0, min_size=9,
connectivity=8)`. -/
def validObjects {r c : ℕ} (g : Grid r c) : Pos r c → Bool :=
  remove_small_objects (rainMask g) 9

/-- `np.sum(image * valid_objects * CLUTTERMASK)`, the true-shower
intensity. -/
def trueShowerSum {r c : ℕ} (cluttermask : BGrid r c) (g : Grid r c) : ℚ :=
  ∑ p : Pos r c,
    g p.1 p.2 * (if validObjects g p then 1 else 0)
      * (if cluttermask p.1 p.2 then 1 else 0)

/-- `is_rainy(image)`, parameterized by the process-wide `CLUTTERMASK`
asset.  Python's `and` short-circuits: when the masked sum is not above
3000 the result is `False` and `has_clutter` is never evaluated. -/
def is_rainy {r c : ℕ} (cluttermask : BGrid r c) (g : Grid r c) :
    Except String Bool :=
  if 3000 < trueShowerSum cluttermask g then
    match has_clutter g 500 130 with
    | Except.ok b => Except.ok (!b)
    | Except.error e => Except.error e
  else
    Except.ok false

/-! ### `read_radar_file` -/

/-- `read_radar_file`, given the decoded raw array and the declared
`calibration_out_of_image` sentinel.  First every cell equal to the
sentinel is zeroed, then every cell equal to the (already updated)
top-left corner value is zeroed.  Real files are nonempty, so the shape
is `(r+1) × (c+1)`. -/
def read_radar_file {r c : ℕ} (raw : Grid (r + 1) (c + 1)) (ooi : ℚ) :
    Grid (r + 1) (c + 1) :=
  let step1 : Grid (r + 1) (c + 1) := fun i j => if raw i j = ooi then 0 else raw i j
  let corner := step1 0 0
  fun i j => if step1 i j = corner then 0 else step1 i j

/-! ### The batch labelling loop (`main`) -/

/-- The label recorded for one file: `some b` on success, `none`
(Python `None`, printed as the empty CSV field) when processing raised. -/
def labelResult (outcome : Except String Bool) : Option Bool :=
  match outcome with
  | Except.ok b => some b
  | Except.error _ => none

/-- The `for f in radar_files` loop of `main`: per-file try/except,
appending one record per file; an error is recorded as `none` and the
loop continues. -/
def processFileLoop (process : String → Except String Bool)
    (files : List String) : List (String × Option Bool) :=
  files.foldl (fun results f => results ++ [(f, labelResult (process f))]) []

/-- `sorted(data_dir.glob("*.h5"))`: the directory's entries filtered by
the `.h5` extension, sorted by filename. -/
def radarFiles (dir : List String) : List String :=
  List.insertionSort (fun a b => a ≤ b) (dir.filter fun f => f.endsWith ".h5")

/-- The record list `main` turns into `rainy_labels.csv`. -/
def mainLabels (process : String → Except String Bool) (dir : List String) :
    List (String × Option Bool) :=
  processFileLoop process (radarFiles dir)

/-- Equality of `Except` values is decidable when it is for both
components (used to evaluate the fallible detectors on concrete grids). -/
instance {ε α : Type} [DecidableEq ε] [DecidableEq α] : DecidableEq (Except ε α) := fun x y =>
  match x, y with
  | Except.ok a, Except.ok b =>
      if h : a = b then isTrue (by rw [h]) else isFalse (by intro hh; cases hh; exact h rfl)
  | Except.error a, Except.error b =>
      if h : a = b then isTrue (by rw [h]) else isFalse (by intro hh; cases hh; exact h rfl)
  | Except.ok _, Except.error _ => isFalse (by intro hh; cases hh)
  | Except.error _, Except.ok _ => isFalse (by intro hh; cases hh)

/-! ### Connected components: the saturation in `reachSet` computes exactly
the 8-connected component of the start cell inside the mask. -/

/-- One step inside the mask: `b` is a mask-true 8-neighbour of `a`. -/
def MStep {r c : ℕ} (m : Pos r c → Bool) (a b : Pos r c) : Prop :=
  m b = true ∧ adj8 a b = true

/-- `q` lies in the 8-connected component of `p` inside the mask `m`:
reachable through a chain of mask-true 8-neighbours. -/
def Connected {r c : ℕ} (m : Pos r c → Bool) (p q : Pos r c) : Prop :=
  Relation.ReflTransGen (MStep m) p q

/-! ### Concrete grids and directories used to instantiate the theorems -/

/-- A raw 2×2 grid `[[7, 5], [9, 7]]` whose declared sentinel (5) differs
from its corner value (7). -/
def raw2 : Grid 2 2 := fun i j =>
  if i = 0 ∧ j = 0 then 7 else if i = 0 then 5 else if j = 0 then 9 else 7

def gLeft : Grid 2 2 := fun i _ => if i = i then 2 else 3

def gRight : Grid 2 2 := fun _ _ => 2

def mLeft : BGrid 2 2 := fun _ j => j = j

def mRight : BGrid 2 2 := fun _ _ => true

def gEx : Grid 3 3 := fun i j => (i.val : ℚ) * (j.val : ℚ)

/-- A 3×3 grid with a single 5-cell cross-shaped blob of intensity 200. -/
def blob5Ex : Grid 3 3 := fun i j =>
  if (i.val, j.val) ∈ [(0, 1), (1, 0), (1, 1), (1, 2), (2, 1)] then 200 else 0

/-- A 4×5 grid entirely covered by one 20-cell blob of intensity 200. -/
def blob20Ex : Grid 4 5 := fun _ _ => 200

def dirEx : List String := ["b.h5", "a.h5", "c.txt"]

def processEx : String → Except String Bool := fun _ => Except.ok false

def filesEx : List String := ["a.h5", "b.h5", "c.h5"]

def processErr : String → Except String Bool :=
  fun s => if s = "b.h5" then Except.error "boom" else Except.ok true

/-- A 12×12 ramp grid: every cell of row `i` holds `600 i`.  Its gradient
along axis 0 is 600 everywhere, so every one of the 144 cells is a clutter
pixel. -/
def rampEx : Grid 12 12 := fun i _ => 600 * (i.val : ℚ)

theorem mem_maskStep {r c : ℕ} (m : Pos r c → Bool) (s : Finset (Pos r c))
    (q : Pos r c) :
    q ∈ maskStep m s ↔ q ∈ s ∨ (m q = true ∧ ∃ p ∈ s, adj8 p q = true) := by
  simp [maskStep]

theorem subset_maskStep {r c : ℕ} (m : Pos r c → Bool) (s : Finset (Pos r c)) :
    s ⊆ maskStep m s :=
  Finset.subset_union_left

theorem iterate_maskStep_subset_succ {r c : ℕ} (m : Pos r c → Bool)
    (s : Finset (Pos r c)) (n : ℕ) :
    (maskStep m)^[n] s ⊆ (maskStep m)^[n + 1] s := by
  rw [Function.iterate_succ_apply']
  exact subset_maskStep m _

theorem iterate_maskStep_subset {r c : ℕ} (m : Pos r c → Bool)
    (s : Finset (Pos r c)) {k n : ℕ} (h : k ≤ n) :
    (maskStep m)^[k] s ⊆ (maskStep m)^[n] s := by
  induction n with
  | zero => simp [Nat.le_zero.mp h]
  | succ n ih =>
      rcases Nat.lt_or_ge k (n + 1) with h' | h'
      · exact (ih (Nat.lt_succ_iff.mp h')).trans (iterate_maskStep_subset_succ m s n)
      · have : k = n + 1 := Nat.le_antisymm h h'
        subst this
        exact subset_rfl

theorem iterate_maskStep_stall {r c : ℕ} (m : Pos r c → Bool)
    (s : Finset (Pos r c)) {j : ℕ}
    (h : (maskStep m)^[j + 1] s = (maskStep m)^[j] s) (d : ℕ) :
    (maskStep m)^[j + d] s = (maskStep m)^[j] s := by
  induction d with
  | zero => rfl
  | succ d ih =>
      have : j + (d + 1) = (j + d) + 1 := by omega
      rw [this, Function.iterate_succ_apply', ih]
      calc maskStep m ((maskStep m)^[j] s)
          = (maskStep m)^[j + 1] s := (Function.iterate_succ_apply' _ _ _).symm
        _ = (maskStep m)^[j] s := h

theorem iterate_maskStep_growth {r c : ℕ} (m : Pos r c → Bool)
    (s : Finset (Pos r c)) (n : ℕ)
    (h : ∀ j < n, (maskStep m)^[j + 1] s ≠ (maskStep m)^[j] s) :
    s.card + n ≤ ((maskStep m)^[n] s).card := by
  induction n with
  | zero => simp
  | succ n ih =>
      have hlt : ((maskStep m)^[n] s).card < ((maskStep m)^[n + 1] s).card := by
        apply Finset.card_lt_card
        refine lt_of_le_of_ne (iterate_maskStep_subset_succ m s n) ?_
        exact fun hh => h n (Nat.lt_succ_self n) hh.symm
      have := ih (fun j hj => h j (Nat.lt_succ_of_lt hj))
      omega

/-- Saturating for `r * c` steps reaches a fixed point of `maskStep`. -/
theorem maskStep_reachSet {r c : ℕ} (m : Pos r c → Bool) (p : Pos r c) :
    maskStep m (reachSet m p) = reachSet m p := by
  have hcard : Fintype.card (Pos r c) = r * c := by
    simp [Fintype.card_prod]
  have key : (maskStep m)^[r * c + 1] ({p} : Finset (Pos r c))
      = (maskStep m)^[r * c] ({p} : Finset (Pos r c)) := by
    by_contra hne
    have hall : ∀ j ≤ r * c, (maskStep m)^[j + 1] ({p} : Finset (Pos r c))
        ≠ (maskStep m)^[j] ({p} : Finset (Pos r c)) := by
      intro j hj heq
      apply hne
      have h1 : (maskStep m)^[j + (r * c - j)] ({p} : Finset (Pos r c))
          = (maskStep m)^[j] {p} := iterate_maskStep_stall m _ heq _
      have h2 : (maskStep m)^[j + (r * c + 1 - j)] ({p} : Finset (Pos r c))
          = (maskStep m)^[j] {p} := iterate_maskStep_stall m _ heq _
      have e1 : j + (r * c - j) = r * c := by omega
      have e2 : j + (r * c + 1 - j) = r * c + 1 := by omega
      rw [e1] at h1
      rw [e2] at h2
      rw [h1, h2]
    have hgrow := iterate_maskStep_growth m ({p} : Finset (Pos r c)) (r * c + 1)
      (fun j hj => hall j (by omega))
    have hle : ((maskStep m)^[r * c + 1] ({p} : Finset (Pos r c))).card
        ≤ r * c := hcard ▸ Finset.card_le_univ _
    rw [Finset.card_singleton] at hgrow
    omega
  calc maskStep m (reachSet m p)
      = (maskStep m)^[r * c + 1] ({p} : Finset (Pos r c)) :=
        (Function.iterate_succ_apply' _ _ _).symm
    _ = reachSet m p := key

theorem mem_reachSet_self {r c : ℕ} (m : Pos r c → Bool) (p : Pos r c) :
    p ∈ reachSet m p :=
  iterate_maskStep_subset m {p} (Nat.zero_le _) (Finset.mem_singleton_self p)

theorem reachSet_sound {r c : ℕ} (m : Pos r c → Bool) (p q : Pos r c)
    (h : q ∈ reachSet m p) : Connected m p q := by
  suffices H : ∀ n x, x ∈ (maskStep m)^[n] ({p} : Finset (Pos r c)) → Connected m p x from
    H (r * c) q h
  intro n
  induction n with
  | zero =>
      intro x hx
      rw [Finset.mem_singleton.mp hx]
      exact Relation.ReflTransGen.refl
  | succ n ih =>
      intro x hx
      rw [Function.iterate_succ_apply', mem_maskStep] at hx
      rcases hx with hx | ⟨hmx, a, ha, hadj⟩
      · exact ih x hx
      · exact Relation.ReflTransGen.tail (ih a ha) ⟨hmx, hadj⟩

theorem reachSet_complete {r c : ℕ} (m : Pos r c → Bool) (p q : Pos r c)
    (h : Connected m p q) : q ∈ reachSet m p := by
  induction h with
  | refl => exact mem_reachSet_self m p
  | tail hab hbq ih =>
      rw [← maskStep_reachSet m p, mem_maskStep]
      exact Or.inr ⟨hbq.1, _, ih, hbq.2⟩

/-- The saturation computes exactly the component of `p` in the mask. -/
theorem mem_reachSet_iff {r c : ℕ} (m : Pos r c → Bool) (p q : Pos r c) :
    q ∈ reachSet m p ↔ Connected m p q :=
  ⟨reachSet_sound m p q, reachSet_complete m p q⟩

/-- The component of `p` as a set coincides with the computed `reachSet`. -/
theorem coe_reachSet {r c : ℕ} (m : Pos r c → Bool) (p : Pos r c) :
    {q | Connected m p q} = (reachSet m p : Set (Pos r c)) := by
  ext q
  simp [mem_reachSet_iff]

theorem ncard_component {r c : ℕ} (m : Pos r c → Bool) (p : Pos r c) :
    Set.ncard {q | Connected m p q} = (reachSet m p).card := by
  rw [coe_reachSet, Set.ncard_coe_Finset]

/-- In-range cell access reduces to the grid function. -/
theorem cell_eq {r c : ℕ} (g : Grid r c) {i j : ℕ} (hi : i < r) (hj : j < c) :
    cell g i j = g ⟨i, hi⟩ ⟨j, hj⟩ := by
  simp [cell, hi, hj]

/-! ## The claims -/

/-- C10: for every decoded file, the returned grid's top-left cell `[0,0]`
is 0: the second normalization step zeroes every cell equal to the corner
value, the corner itself included. -/
theorem claims_C10 {r c : ℕ} (raw : Grid (r + 1) (c + 1)) (ooi : ℚ) :
    read_radar_file raw ooi 0 0 = 0 := by
  simp [read_radar_file]

/-- C4: the Grid Loader zeroes, in order, every cell equal to the declared
out-of-image sentinel, then every cell equal to the top-left corner value;
when the sentinel differs from the corner value, cells carrying either
value are zeroed, and cells carrying neither value are unchanged. -/
theorem claims_C4 {r c : ℕ} (raw : Grid (r + 1) (c + 1)) (ooi : ℚ) :
    (∀ i j, raw i j = ooi → read_radar_file raw ooi i j = 0)
    ∧ (raw 0 0 ≠ ooi → ∀ i j, raw i j = raw 0 0 → read_radar_file raw ooi i j = 0)
    ∧ (∀ i j, raw i j ≠ ooi → raw i j ≠ raw 0 0 → read_radar_file raw ooi i j = raw i j) := by
  refine ⟨?_, ?_, ?_⟩
  · intro i j h
    simp [read_radar_file, h]
  · intro h0 i j hij
    simp [read_radar_file, hij, h0]
  · intro i j h1 h2
    simp only [read_radar_file, if_neg h1]
    by_cases hc : raw 0 0 = ooi
    · rw [if_pos hc]
      by_cases hz : raw i j = 0
      · rw [if_pos hz]
        exact hz.symm
      · rw [if_neg hz]
    · rw [if_neg hc, if_neg h2]

theorem claims_C4_witness :
    read_radar_file raw2 5 0 1 = 0
    ∧ read_radar_file raw2 5 1 1 = 0
    ∧ read_radar_file raw2 5 1 0 = raw2 1 0 :=
  ⟨(claims_C4 raw2 5).1 0 1 (by decide),
   (claims_C4 raw2 5).2.1 (by decide) 1 1 (by decide),
   (claims_C4 raw2 5).2.2 1 0 (by decide) (by decide)⟩

/-- C8: when the decoded file's raw cells are non-negative (the container
stores unsigned integer reflectivities), every cell of the normalized grid
returned by the loader is non-negative. -/
theorem claims_C8 {r c : ℕ} (raw : Grid (r + 1) (c + 1)) (ooi : ℚ)
    (hnn : ∀ i j, 0 ≤ raw i j) :
    ∀ i j, 0 ≤ read_radar_file raw ooi i j := by
  intro i j
  simp only [read_radar_file]
  split_ifs <;> first | exact le_refl _ | exact hnn i j

theorem claims_C8_witness :
    (∀ i j, 0 ≤ raw2 i j) ∧ 0 ≤ read_radar_file raw2 5 1 0 :=
  ⟨by decide, claims_C8 raw2 5 (by decide) 1 0⟩

/-- C9: the detectors are deterministic functions of the cell values of
their inputs: on pointwise-equal grids and masks they return the same
result (the embedding is pure; the source performs no in-place writes in
either function). -/
theorem claims_C9 {r c : ℕ} (g g' : Grid r c) (cm cm' : BGrid r c)
    (t : ℚ) (mp : ℕ)
    (hg : ∀ i j, g i j = g' i j) (hm : ∀ i j, cm i j = cm' i j) :
    is_rainy cm g = is_rainy cm' g' ∧ has_clutter g t mp = has_clutter g' t mp := by
  have hg2 : g = g' := funext fun i => funext fun j => hg i j
  have hm2 : cm = cm' := funext fun i => funext fun j => hm i j
  rw [hg2, hm2]
  exact ⟨rfl, rfl⟩

theorem claims_C9_witness :
    (∀ i j, gLeft i j = gRight i j) ∧ (∀ i j, mLeft i j = mRight i j)
    ∧ is_rainy mLeft gLeft = is_rainy mRight gRight
    ∧ has_clutter gLeft 500 130 = has_clutter gRight 500 130 :=
  ⟨by decide, by decide,
   (claims_C9 gLeft gRight mLeft mRight 500 130 (by decide) (by decide)).1,
   (claims_C9 gLeft gRight mLeft mRight 500 130 (by decide) (by decide)).2⟩

/-- C1: `is_rainy` returns `True` exactly when the true-shower intensity
(grid times filtered signal mask times clutter mask, summed) strictly
exceeds 3000 and `has_clutter` with the default parameters returns
`False`; in particular a cluttered grid is labeled not rainy even when
its masked sum exceeds 3000. -/
theorem claims_C1 {r c : ℕ} (cluttermask : BGrid r c) (g : Grid r c) :
    (is_rainy cluttermask g = Except.ok true ↔
      3000 < trueShowerSum cluttermask g ∧ has_clutter g 500 130 = Except.ok false)
    ∧ (has_clutter g 500 130 = Except.ok true →
        is_rainy cluttermask g = Except.ok false) := by
  constructor
  · by_cases hs : 3000 < trueShowerSum cluttermask g
    · cases hcl : has_clutter g 500 130 with
      | ok b => cases b <;> simp [is_rainy, hs, hcl]
      | error e => simp [is_rainy, hs, hcl]
    · simp [is_rainy, hs]
  · intro h
    by_cases hs : 3000 < trueShowerSum cluttermask g
    · simp [is_rainy, hs, h]
    · simp [is_rainy, hs]

/-- C7 counterexample: on the all-zero 1×1 grid the clutter detector does
not return a boolean: `np.gradient` rejects axes with fewer than 2 points,
so `has_clutter` raises instead of returning `False`. -/
theorem claims_C7_counterexample :
    has_clutter (fun _ _ => 0 : Grid 1 1) 500 130
      = Except.error "Shape of array too small to calculate a numerical gradient" := by
  decide

/-- C7 (amended): for an all-zero grid of any dimensions `is_rainy`
returns the definite boolean `False` without evaluating the gradient
(the masked sum is 0, and Python's `and` short-circuits), and
`has_clutter` returns `False` without crashing whenever both dimensions
are at least 2; for degenerate shapes with an axis shorter than 2 the
gradient computation raises. -/
theorem claims_C7_amended :
    (∀ (r c : ℕ) (cluttermask : BGrid r c),
      is_rainy cluttermask (fun _ _ => 0) = Except.ok false)
    ∧ (∀ r c : ℕ, 2 ≤ r → 2 ≤ c →
      has_clutter (fun _ _ => 0 : Grid r c) 500 130 = Except.ok false) := by
  constructor
  · intro r c cluttermask
    have hsum : trueShowerSum cluttermask (fun _ _ => 0 : Grid r c) = 0 := by
      simp [trueShowerSum]
    norm_num [is_rainy, hsum]
  · intro r c hr hc
    have hcell : ∀ a b : ℕ, cell (fun _ _ => 0 : Grid r c) a b = 0 := by
      intro a b
      unfold cell
      split <;> rfl
    have hrow : ∀ (i : Fin r) (j : Fin c), gradRow (fun _ _ => 0 : Grid r c) i j = 0 := by
      intro i j
      unfold gradRow
      split_ifs <;> simp [hcell]
    have hcol : ∀ (i : Fin r) (j : Fin c), gradCol (fun _ _ => 0 : Grid r c) i j = 0 := by
      intro i j
      unfold gradCol
      split_ifs <;> simp [hcell]
    have hcnt : clutterCount (fun _ _ => 0 : Grid r c) 500 = 0 := by
      unfold clutterCount
      have hno : ∀ p : Pos r c,
          ¬((500 : ℚ) ^ 2 < magSq (fun _ _ => 0 : Grid r c) p.1 p.2) := by
        intro p
        rw [magSq, hrow, hcol]
        norm_num
      rw [Finset.filter_false_of_mem (fun p _ => hno p), Finset.card_empty]
    unfold has_clutter
    rw [if_neg (by omega)]
    simp [hcnt]

theorem claims_C7_witness :
    is_rainy (fun _ _ => true) (fun _ _ => 0 : Grid 10 10) = Except.ok false
    ∧ has_clutter (fun _ _ => 0 : Grid 10 10) 500 130 = Except.ok false :=
  ⟨claims_C7_amended.1 10 10 (fun _ _ => true),
   claims_C7_amended.2 10 10 (by decide) (by decide)⟩

/-- C2: `has_clutter` counts the cells whose squared gradient magnitude
strictly exceeds `threshold²` and returns true iff that count strictly
exceeds `min_pixels` (a count of exactly `min_pixels` yields false); the
gradient is the standard numerical one, central differences at interior
cells and one-sided differences at the edges, along both axes. -/
theorem claims_C2 {r c : ℕ} (g : Grid r c) (t : ℚ) (mp : ℕ)
    (hr : 2 ≤ r) (hc : 2 ≤ c) :
    (has_clutter g t mp = Except.ok true ↔
      mp < (Finset.univ.filter fun p : Pos r c =>
        t ^ 2 < gradRow g p.1 p.2 ^ 2 + gradCol g p.1 p.2 ^ 2).card)
    ∧ ((Finset.univ.filter fun p : Pos r c =>
        t ^ 2 < gradRow g p.1 p.2 ^ 2 + gradCol g p.1 p.2 ^ 2).card = mp →
      has_clutter g t mp = Except.ok false)
    ∧ (∀ (i : Fin r) (j : Fin c) (h1 : 1 ≤ i.val) (h2 : i.val < r - 1),
        gradRow g i j = (g ⟨i.val + 1, by omega⟩ j - g ⟨i.val - 1, by omega⟩ j) / 2)
    ∧ (∀ (i : Fin r) (j : Fin c), i.val = 0 →
        gradRow g i j = g ⟨1, by omega⟩ j - g ⟨0, by omega⟩ j)
    ∧ (∀ (i : Fin r) (j : Fin c), i.val = r - 1 →
        gradRow g i j = g ⟨r - 1, by omega⟩ j - g ⟨r - 2, by omega⟩ j)
    ∧ (∀ (i : Fin r) (j : Fin c) (h1 : 1 ≤ j.val) (h2 : j.val < c - 1),
        gradCol g i j = (g i ⟨j.val + 1, by omega⟩ - g i ⟨j.val - 1, by omega⟩) / 2)
    ∧ (∀ (i : Fin r) (j : Fin c), j.val = 0 →
        gradCol g i j = g i ⟨1, by omega⟩ - g i ⟨0, by omega⟩)
    ∧ (∀ (i : Fin r) (j : Fin c), j.val = c - 1 →
        gradCol g i j = g i ⟨c - 1, by omega⟩ - g i ⟨c - 2, by omega⟩) := by
  have hdim : ¬(r < 2 ∨ c < 2) := by omega
  refine ⟨?_, ?_, ?_, ?_, ?_, ?_, ?_, ?_⟩
  · simp [has_clutter, if_neg hdim, clutterCount, magSq]
  · intro h
    simp [has_clutter, if_neg hdim, clutterCount, magSq, h]
  · intro i j hi1 hi2
    simp only [gradRow]
    rw [if_neg (by omega), if_neg (by omega),
      cell_eq g (by omega) j.isLt, cell_eq g (by omega) j.isLt]
  · intro i j h0
    simp only [gradRow]
    rw [if_pos h0, cell_eq g (by omega) j.isLt, cell_eq g (by omega) j.isLt]
  · intro i j hL
    simp only [gradRow]
    rw [if_neg (by omega), if_pos hL,
      cell_eq g (by omega) j.isLt, cell_eq g (by omega) j.isLt]
  · intro i j hj1 hj2
    simp only [gradCol]
    rw [if_neg (by omega), if_neg (by omega),
      cell_eq g i.isLt (by omega), cell_eq g i.isLt (by omega)]
  · intro i j h0
    simp only [gradCol]
    rw [if_pos h0, cell_eq g i.isLt (by omega), cell_eq g i.isLt (by omega)]
  · intro i j hL
    simp only [gradCol]
    rw [if_neg (by omega), if_pos hL,
      cell_eq g i.isLt (by omega), cell_eq g i.isLt (by omega)]

theorem claims_C2_witness :
    2 ≤ 3 ∧ (has_clutter gEx 500 130 = Except.ok true ↔
      130 < (Finset.univ.filter fun p : Pos 3 3 =>
        (500 : ℚ) ^ 2 < gradRow gEx p.1 p.2 ^ 2 + gradCol gEx p.1 p.2 ^ 2).card) :=
  ⟨by decide, (claims_C2 gEx 500 130 (by decide) (by decide)).1⟩

/-- C3: the small-object filter keeps a cell exactly when it carries
signal (`> 0`) and its 8-connected component in the signal mask has at
least 9 cells (components under 9 cells are cleared, components of 9 or
more are kept); a lone 5-cell blob therefore leads to a masked sum of 0,
while a 20-cell blob survives the filter. -/
theorem claims_C3 :
    (∀ (r c : ℕ) (g : Grid r c) (p : Pos r c),
      validObjects g p = true ↔
        0 < g p.1 p.2 ∧ 9 ≤ Set.ncard {q | Connected (rainMask g) p q})
    ∧ trueShowerSum (fun _ _ => true) blob5Ex = 0
    ∧ validObjects blob20Ex (0, 0) = true := by
  refine ⟨?_, ?_, by decide⟩
  · intro r c g p
    simp [validObjects, remove_small_objects, rainMask, ncard_component]
  · have hv : ∀ p : Pos 3 3, validObjects blob5Ex p = false := by decide
    simp [trueShowerSum, hv]

/-- The per-file loop is elementwise: one record per file, in order. -/
theorem processFileLoop_eq (process : String → Except String Bool)
    (files : List String) :
    processFileLoop process files
      = files.map fun f => (f, labelResult (process f)) := by
  have H : ∀ (fs : List String) (acc : List (String × Option Bool)),
      List.foldl (fun results f => results ++ [(f, labelResult (process f))]) acc fs
        = acc ++ fs.map fun f => (f, labelResult (process f)) := by
    intro fs
    induction fs with
    | nil => intro acc; simp
    | cons f fs ih =>
        intro acc
        simp [List.foldl_cons, ih]
  simpa [processFileLoop] using H files []

/-- C5: the Label Report has exactly one record per radar file selected by
the `.h5` extension filter — none dropped, none duplicated (for a
duplicate-free directory listing) — and records appear in sorted-filename
order, for every per-file outcome. -/
theorem claims_C5 (process : String → Except String Bool) (dir : List String) :
    ((mainLabels process dir).map Prod.fst = radarFiles dir)
    ∧ List.Sorted (fun a b => a ≤ b) (radarFiles dir)
    ∧ (radarFiles dir).Perm (dir.filter fun f => f.endsWith ".h5")
    ∧ (dir.Nodup → ((mainLabels process dir).map Prod.fst).Nodup) := by
  have hmap : (mainLabels process dir).map Prod.fst = radarFiles dir := by
    rw [mainLabels, processFileLoop_eq, List.map_map]
    have hid : (Prod.fst ∘ fun f => (f, labelResult (process f))) = @id String := rfl
    rw [hid, List.map_id]
  refine ⟨hmap, ?_, ?_, ?_⟩
  · exact List.sorted_insertionSort _ _
  · exact List.perm_insertionSort _ _
  · intro hnd
    rw [hmap, radarFiles]
    exact (List.perm_insertionSort _ _).nodup_iff.mpr (hnd.filter _)

theorem claims_C5_witness :
    dirEx.Nodup ∧ ((mainLabels processEx dirEx).map Prod.fst).Nodup :=
  ⟨by decide, (claims_C5 processEx dirEx).2.2.2 (by decide)⟩

/-- C6: a per-file error is caught by the batch loop: the failing file is
recorded with the label `none` (unknown, distinct from `some false`), and
every file — the failing one included — still gets exactly one record in
order, so the error never aborts the loop. -/
theorem claims_C6 (process : String → Except String Bool) (files : List String)
    (f e : String) (hf : f ∈ files) (he : process f = Except.error e) :
    ((f, (none : Option Bool)) ∈ processFileLoop process files)
    ∧ ((processFileLoop process files).map Prod.fst = files)
    ∧ (∀ g : String, g ∈ files → ∃ lbl, (g, lbl) ∈ processFileLoop process files)
    ∧ (none : Option Bool) ≠ some false := by
  refine ⟨?_, ?_, ?_, by simp⟩
  · rw [processFileLoop_eq]
    have : (f, (none : Option Bool)) = (f, labelResult (process f)) := by
      rw [he]
      rfl
    rw [this]
    exact List.mem_map_of_mem _ hf
  · rw [processFileLoop_eq, List.map_map]
    have hid : (Prod.fst ∘ fun f => (f, labelResult (process f))) = @id String := rfl
    rw [hid, List.map_id]
  · intro g hg
    exact ⟨labelResult (process g), by
      rw [processFileLoop_eq]
      exact List.mem_map_of_mem _ hg⟩

theorem claims_C6_witness :
    ("b.h5", (none : Option Bool)) ∈ processFileLoop processErr filesEx
    ∧ (processFileLoop processErr filesEx).map Prod.fst = filesEx :=
  ⟨(claims_C6 processErr filesEx "b.h5" "boom" (by decide) (by decide)).1,
   (claims_C6 processErr filesEx "b.h5" "boom" (by decide) (by decide)).2.1⟩

theorem has_clutter_rampEx : has_clutter rampEx 500 130 = Except.ok true := by
  have hcell : ∀ a b : ℕ, a < 12 → b < 12 → cell rampEx a b = 600 * (a : ℚ) := by
    intro a b ha hb
    rw [cell_eq rampEx ha hb]
    rfl
  have hrow : ∀ i j : Fin 12, gradRow rampEx i j = 600 := by
    intro i j
    have hj : j.val < 12 := j.isLt
    have hi : i.val < 12 := i.isLt
    by_cases h0 : i.val = 0
    · simp only [gradRow, if_pos h0]
      rw [hcell 1 j.val (by omega) hj, hcell 0 j.val (by omega) hj]
      norm_num
    · by_cases hL : i.val = 11
      · simp only [gradRow]
        rw [if_neg h0, if_pos (show i.val = 12 - 1 by omega)]
        rw [hcell 11 j.val (by omega) hj, hcell 10 j.val (by omega) hj]
        norm_num
      · simp only [gradRow]
        rw [if_neg h0, if_neg (show ¬i.val = 12 - 1 by omega)]
        rw [hcell (i.val + 1) j.val (by omega) hj, hcell (i.val - 1) j.val (by omega) hj]
        have h1 : 1 ≤ i.val := by omega
        have e1 : ((i.val + 1 : ℕ) : ℚ) = (i.val : ℚ) + 1 := by push_cast; ring
        have e2 : ((i.val - 1 : ℕ) : ℚ) = (i.val : ℚ) - 1 := by
          rw [Nat.cast_sub h1]
          norm_num
        rw [e1, e2]
        ring
  have hcol : ∀ i j : Fin 12, gradCol rampEx i j = 0 := by
    intro i j
    have hj : j.val < 12 := j.isLt
    have hi : i.val < 12 := i.isLt
    by_cases h0 : j.val = 0
    · simp only [gradCol, if_pos h0]
      rw [hcell i.val 1 hi (by omega), hcell i.val 0 hi (by omega)]
      ring
    · by_cases hL : j.val = 11
      · simp only [gradCol]
        rw [if_neg h0, if_pos (show j.val = 12 - 1 by omega)]
        rw [hcell i.val 11 hi (by omega), hcell i.val 10 hi (by omega)]
        ring
      · simp only [gradCol]
        rw [if_neg h0, if_neg (show ¬j.val = 12 - 1 by omega)]
        rw [hcell i.val (j.val + 1) hi (by omega), hcell i.val (j.val - 1) hi (by omega)]
        ring
  have hmag : ∀ p : Pos 12 12, (500 : ℚ) ^ 2 < magSq rampEx p.1 p.2 := by
    intro p
    rw [magSq, hrow p.1 p.2, hcol p.1 p.2]
    norm_num
  have hcnt : clutterCount rampEx 500 = 144 := by
    unfold clutterCount
    rw [Finset.filter_true_of_mem (fun p _ => hmag p)]
    simp [Finset.card_univ]
  unfold has_clutter
  rw [if_neg (by omega), hcnt]
  rfl

theorem claims_C1_witness :
    is_rainy (fun _ _ => true) rampEx = Except.ok false :=
  (claims_C1 (fun _ _ => true) rampEx).2 has_clutter_rampEx

theorem claims_C3_witness :
    validObjects blob20Ex (0, 0) = true ↔
      0 < blob20Ex 0 0 ∧ 9 ≤ Set.ncard {q | Connected (rainMask blob20Ex) (0, 0) q} :=
  claims_C3.1 4 5 blob20Ex (0, 0)

theorem claims_C10_witness : read_radar_file raw2 5 0 0 = 0 :=
  claims_C10 raw2 5

end DGMR
